import Mathlib

/-
Verification development for the nv_dds DDS texture library (src/nv_dds.h).

Embedding conventions:
  - C++ unsigned int arithmetic is modelled on Nat with explicit `% 4294967296`
    (i.e. mod 2^32) exactly where the C computation can wrap.
  - std::deque containers are modelled as Lean lists; byte buffers
    (uint8_t*) as lists of Nat.
  - an `assert(...)` in an accessor is modelled by returning Option: the
    accessor yields `none` exactly when one of its asserts would fire
    (an InvariantViolation / fail-fast abort), and `some v` with the
    returned value otherwise.  Accessors of the source that contain no
    assert are embedded as unconditionally returning `some`.
-/

namespace nv_dds

/-- GL format constant from the define in nv_dds.h line 18 (opaque DXT1). -/
def GL_COMPRESSED_RGB_S3TC_DXT1_EXT : Nat := 0x83F0

/-- GL format constant from the define in nv_dds.h line 19 (DXT1 with 1-bit alpha). -/
def GL_COMPRESSED_RGBA_S3TC_DXT1_EXT : Nat := 0x83F1

/-- GL format constant from the define in nv_dds.h line 20 (DXT3). -/
def GL_COMPRESSED_RGBA_S3TC_DXT3_EXT : Nat := 0x83F2

/-- GL format constant from the define in nv_dds.h line 21 (DXT5). -/
def GL_COMPRESSED_RGBA_S3TC_DXT5_EXT : Nat := 0x83F3

/-- enum TextureType of nv_dds.h. -/
inductive TextureType where
  | TextureNone
  | TextureFlat
  | Texture3D
  | TextureCubemap
deriving DecidableEq

export TextureType (TextureNone TextureFlat Texture3D TextureCubemap)

/-- class CSurface: one image plane; width/height/depth/size metadata plus
the owned pixel buffer (uint8_t *m_pixels, modelled as a byte list). -/
structure CSurface where
  m_width : Nat
  m_height : Nat
  m_depth : Nat
  m_size : Nat
  m_pixels : List Nat
deriving DecidableEq

/-- CSurface::get_width. -/
def CSurface.get_width (s : CSurface) : Nat := s.m_width

/-- CSurface::get_height. -/
def CSurface.get_height (s : CSurface) : Nat := s.m_height

/-- CSurface::get_depth. -/
def CSurface.get_depth (s : CSurface) : Nat := s.m_depth

/-- CSurface::get_size. -/
def CSurface.get_size (s : CSurface) : Nat := s.m_size

/-- class CTexture : public CSurface.  The public-inheritance base subobject
is the base-level surface; m_mipmaps is the deque of mipmap surfaces. -/
structure CTexture where
  toCSurface : CSurface
  m_mipmaps : List CSurface
deriving DecidableEq

/-- CTexture::get_mipmap (nv_dds.h lines 96-101):
asserts the mipmap deque is non-empty and the index is in range, then
returns m_mipmaps[index].  The protected overload (lines 112-117) performs
the identical checks and indexing. -/
def CTexture.get_mipmap (t : CTexture) (index : Nat) : Option CSurface :=
  if ¬ t.m_mipmaps.isEmpty ∧ index < t.m_mipmaps.length then
    t.m_mipmaps[index]?
  else
    none

/-- CTexture::add_mipmap (nv_dds.h lines 103-105): m_mipmaps.push_back(mipmap). -/
def CTexture.add_mipmap (t : CTexture) (mipmap : CSurface) : CTexture :=
  { t with m_mipmaps := t.m_mipmaps ++ [mipmap] }

/-- CTexture::get_num_mipmaps (nv_dds.h lines 107-109): m_mipmaps.size().
The cast of size_t to unsigned int is modelled as the plain list length,
container sizes being unbounded in the model. -/
def CTexture.get_num_mipmaps (t : CTexture) : Nat :=
  t.m_mipmaps.length

/-- class CDDSImage: format/component metadata, a texture-type tag, the
validity flag and the deque of textures (1 for flat/volume, 6 for cubemaps). -/
structure CDDSImage where
  m_format : Nat
  m_components : Nat
  m_type : TextureType
  m_valid : Bool
  m_images : List CTexture
deriving DecidableEq

/-- CDDSImage::operator uint8_t* (nv_dds.h lines 151-156): asserts m_valid
and non-emptiness, then yields m_images[0] converted to its pixel buffer. -/
def CDDSImage.asBytes (img : CDDSImage) : Option (List Nat) :=
  match img.m_valid, img.m_images with
  | true, t :: _ => some t.toCSurface.m_pixels
  | _, _ => none

/-- CDDSImage::get_width (nv_dds.h lines 158-163): asserts m_valid and
non-emptiness, then returns m_images[0].get_width(). -/
def CDDSImage.get_width (img : CDDSImage) : Option Nat :=
  match img.m_valid, img.m_images with
  | true, t :: _ => some t.toCSurface.get_width
  | _, _ => none

/-- CDDSImage::get_height (nv_dds.h lines 165-170). -/
def CDDSImage.get_height (img : CDDSImage) : Option Nat :=
  match img.m_valid, img.m_images with
  | true, t :: _ => some t.toCSurface.get_height
  | _, _ => none

/-- CDDSImage::get_depth (nv_dds.h lines 172-177). -/
def CDDSImage.get_depth (img : CDDSImage) : Option Nat :=
  match img.m_valid, img.m_images with
  | true, t :: _ => some t.toCSurface.get_depth
  | _, _ => none

/-- CDDSImage::get_size (nv_dds.h lines 179-184). -/
def CDDSImage.get_size (img : CDDSImage) : Option Nat :=
  match img.m_valid, img.m_images with
  | true, t :: _ => some t.toCSurface.get_size
  | _, _ => none

/-- CDDSImage::get_num_mipmaps (nv_dds.h lines 186-191). -/
def CDDSImage.get_num_mipmaps (img : CDDSImage) : Option Nat :=
  match img.m_valid, img.m_images with
  | true, t :: _ => some t.get_num_mipmaps
  | _, _ => none

/-- CDDSImage::get_mipmap (nv_dds.h lines 193-199): asserts m_valid,
non-emptiness and index range, then returns m_images[0].get_mipmap(index)
(which re-checks its own asserts, see CTexture.get_mipmap). -/
def CDDSImage.get_mipmap (img : CDDSImage) (index : Nat) : Option CSurface :=
  match img.m_valid, img.m_images with
  | true, t :: _ =>
      if index < t.get_num_mipmaps then t.get_mipmap index else none
  | _, _ => none

/-- CDDSImage::get_cubemap_face (nv_dds.h lines 201-209): asserts m_valid,
non-emptiness, exactly six textures, cubemap type and face < 6, then
returns m_images[face]. -/
def CDDSImage.get_cubemap_face (img : CDDSImage) (face : Nat) : Option CTexture :=
  if img.m_valid = true ∧ img.m_images ≠ [] ∧ img.m_images.length = 6 ∧
      img.m_type = TextureCubemap ∧ face < 6 then
    img.m_images[face]?
  else
    none

/-- CDDSImage::get_components (nv_dds.h lines 211-213): returns
m_components directly, with no assert on its path. -/
def CDDSImage.get_components (img : CDDSImage) : Option Nat :=
  some img.m_components

/-- CDDSImage::get_format (nv_dds.h lines 214-216): no assert. -/
def CDDSImage.get_format (img : CDDSImage) : Option Nat :=
  some img.m_format

/-- CDDSImage::get_type (nv_dds.h lines 217-219): no assert. -/
def CDDSImage.get_type (img : CDDSImage) : Option TextureType :=
  some img.m_type

/-- CDDSImage::is_compressed (nv_dds.h lines 221-225): format equals one of
the three RGBA S3TC enums.  Note the opaque-DXT1 enum 0x83F0 is absent
from the comparison in the source. -/
def CDDSImage.is_compressed (img : CDDSImage) : Bool :=
  (img.m_format == GL_COMPRESSED_RGBA_S3TC_DXT1_EXT)
    || (img.m_format == GL_COMPRESSED_RGBA_S3TC_DXT3_EXT)
    || (img.m_format == GL_COMPRESSED_RGBA_S3TC_DXT5_EXT)

/-- CDDSImage::is_cubemap. -/
def CDDSImage.is_cubemap (img : CDDSImage) : Bool :=
  img.m_type == TextureCubemap

/-- CDDSImage::is_volume. -/
def CDDSImage.is_volume (img : CDDSImage) : Bool :=
  img.m_type == Texture3D

/-- CDDSImage::is_valid. -/
def CDDSImage.is_valid (img : CDDSImage) : Bool :=
  img.m_valid

/-- CDDSImage::get_dword_aligned_linesize (nv_dds.h lines 253-255):
((width * bpp + 31) AND -32) >> 3 in unsigned int arithmetic; the int
literal -32 converts to the unsigned value 2^32 - 32 = 4294967264, and the
multiplication and addition wrap mod 2^32. -/
def get_dword_aligned_linesize (width bpp : Nat) : Nat :=
  (((width * bpp % 4294967296 + 31) % 4294967296) &&& 4294967264) >>> 3

/-- CDDSImage::is_dword_aligned (nv_dds.h lines 237-244): asserts m_valid
(and, via get_width, non-emptiness), then compares the dword-aligned
stride of the base level against the naive width * components line size.
Both sides are computed in 32-bit arithmetic; the comparison as C ints is
equality of the wrapped 32-bit values. -/
def CDDSImage.is_dword_aligned (img : CDDSImage) : Option Bool :=
  match img.m_valid, img.m_images with
  | true, t :: _ =>
      some (get_dword_aligned_linesize t.toCSurface.get_width
              (img.m_components * 8 % 4294967296)
            == t.toCSurface.get_width * img.m_components % 4294967296)
  | _, _ => none

/-- A valid flat image whose pixel format is the opaque-DXT1 enum 0x83F0. -/
def imgOpaqueDXT1 : CDDSImage :=
  { m_format := GL_COMPRESSED_RGB_S3TC_DXT1_EXT
    m_components := 3
    m_type := TextureFlat
    m_valid := true
    m_images := [{ toCSurface := { m_width := 4, m_height := 4, m_depth := 0,
                                   m_size := 8, m_pixels := [0, 0, 0, 0, 0, 0, 0, 0] }
                   m_mipmaps := [] }] }

/-- A valid flat one-component image whose base width is 2^29, so that the
32-bit product width * bpp in the stride computation wraps. -/
def imgOverflowWidth : CDDSImage :=
  { m_format := 0x1907
    m_components := 1
    m_type := TextureFlat
    m_valid := true
    m_images := [{ toCSurface := { m_width := 536870912, m_height := 1, m_depth := 0,
                                   m_size := 536870912, m_pixels := [] }
                   m_mipmaps := [] }] }

/-- A small valid flat RGB image (4 x 1, three components, no padding). -/
def imgAligned4x1 : CDDSImage :=
  { m_format := 0x1907
    m_components := 3
    m_type := TextureFlat
    m_valid := true
    m_images := [{ toCSurface := { m_width := 4, m_height := 1, m_depth := 0,
                                   m_size := 12,
                                   m_pixels := [1, 2, 3, 4, 5, 6, 7, 8, 9, 10, 11, 12] }
                   m_mipmaps := [] }] }

/-- struct DXTColBlock (nv_dds.h lines 24-29): two 16-bit reference colors
and four one-byte pixel-index rows (the uint8_t row[4] array is modelled
as a byte list). -/
structure DXTColBlock where
  col0 : Nat
  col1 : Nat
  row : List Nat
deriving DecidableEq

/-- struct DXT3AlphaBlock (nv_dds.h lines 31-33): four 16-bit alpha rows. -/
structure DXT3AlphaBlock where
  row : List Nat
deriving DecidableEq

/-- struct DXT5AlphaBlock (nv_dds.h lines 35-40): two one-byte reference
alphas and a six-byte 3-bit-per-pixel index bitstream (uint8_t row[6]). -/
structure DXT5AlphaBlock where
  alpha0 : Nat
  alpha1 : Nat
  row : List Nat
deriving DecidableEq

/-- little-endian byte layout of a uint16_t field. -/
def bytesOfU16 (v : Nat) : List Nat :=
  [v % 256, v / 256 % 256]

/-- byte layout of a DXTColBlock: col0, col1 (2 bytes each), then row[0..3]. -/
def DXTColBlock.serialize (b : DXTColBlock) : List Nat :=
  bytesOfU16 b.col0 ++ bytesOfU16 b.col1 ++ b.row

/-- byte layout of a DXT3AlphaBlock: four 16-bit rows. -/
def DXT3AlphaBlock.serialize (b : DXT3AlphaBlock) : List Nat :=
  (b.row.map bytesOfU16).flatten

/-- byte layout of a DXT5AlphaBlock: alpha0, alpha1, then the 6-byte
bitstream. -/
def DXT5AlphaBlock.serialize (b : DXT5AlphaBlock) : List Nat :=
  b.alpha0 :: b.alpha1 :: b.row

/-- Modelled from the spec: CDDSImage::clamp_size, whose body is not in
src/ (declaration only, nv_dds.h line 247); per the spec it returns
max(n, 1) so mip dimensions never reach zero. -/
def clamp_size (size : Nat) : Nat :=
  max size 1

/-- Modelled from the spec: CDDSImage::size_dxtc, whose body is not in
src/ (declaration only, nv_dds.h line 248); per the spec it returns
ceil(width/4) * ceil(height/4) * blockBytes, blockBytes being 8 for DXT1
and 16 for DXT3/DXT5, chosen by the image's format field (passed
explicitly here). -/
def size_dxtc (format width height : Nat) : Nat :=
  (width + 3) / 4 * ((height + 3) / 4) *
    (if format = GL_COMPRESSED_RGB_S3TC_DXT1_EXT
        ∨ format = GL_COMPRESSED_RGBA_S3TC_DXT1_EXT then 8 else 16)

/-- Modelled from the spec: CDDSImage::size_rgb, whose body is not in
src/ (declaration only, nv_dds.h line 249); per the spec it returns
width * height * componentCount with no row padding. -/
def size_rgb (components width height : Nat) : Nat :=
  width * height * components

/-- the 48-bit little-endian integer held by a byte list. -/
def natOfBytes (l : List Nat) : Nat :=
  l.foldr (fun b acc => b + 256 * acc) 0

/-- the six little-endian bytes of a 48-bit integer. -/
def bytesOfNat48 (m : Nat) : List Nat :=
  [m % 256, m / 256 % 256, m / 65536 % 256, m / 16777216 % 256,
   m / 4294967296 % 256, m / 1099511627776 % 256]

/-- reverse the four 12-bit rows (four 3-bit indices each) packed in a
48-bit DXT5 alpha bitstream. -/
def flipRows48 (n : Nat) : Nat :=
  n / 68719476736 % 4096 + 4096 * (n / 16777216 % 4096)
    + 16777216 * (n / 4096 % 4096) + 68719476736 * (n % 4096)

/-- Modelled from the spec: CDDSImage::flip_dxt5_alpha, whose body is not
in src/ (declaration only, nv_dds.h line 263); per the spec the six-byte
3-bit-per-pixel bitstream is decoded into a 4 x 4 grid of 3-bit indices,
the grid's row order is reversed, and the grid is re-packed; the two
reference alphas are unchanged. -/
def flip_dxt5_alpha (b : DXT5AlphaBlock) : DXT5AlphaBlock :=
  { b with row := bytesOfNat48 (flipRows48 (natOfBytes b.row)) }

/-- reversing the four encoded pixel rows inside one color block. -/
def flipColBlock (b : DXTColBlock) : DXTColBlock :=
  { b with row := b.row.reverse }

/-- reversing the four 16-bit alpha rows of a DXT3 alpha sub-block. -/
def flipDXT3Alpha (a : DXT3AlphaBlock) : DXT3AlphaBlock :=
  { a with row := a.row.reverse }

/-- Modelled from the spec: CDDSImage::flip_blocks_dxtc1, whose body is
not in src/ (declaration only, nv_dds.h line 260); flipping one line of
DXT1 blocks reverses the four encoded pixel rows inside each block. -/
def flip_blocks_dxtc1 (line : List DXTColBlock) : List DXTColBlock :=
  line.map flipColBlock

/-- Modelled from the spec: CDDSImage::flip_blocks_dxtc3 (nv_dds.h line
261); each block carries a DXT3 alpha sub-block whose four rows are
reversed in lock-step with the color block's rows. -/
def flip_blocks_dxtc3 (line : List (DXT3AlphaBlock × DXTColBlock)) :
    List (DXT3AlphaBlock × DXTColBlock) :=
  line.map (fun p => (flipDXT3Alpha p.1, flipColBlock p.2))

/-- Modelled from the spec: CDDSImage::flip_blocks_dxtc5 (nv_dds.h line
262); each block carries a DXT5 alpha sub-block flipped by the dedicated
alpha-block routine. -/
def flip_blocks_dxtc5 (line : List (DXT5AlphaBlock × DXTColBlock)) :
    List (DXT5AlphaBlock × DXTColBlock) :=
  line.map (fun p => (flip_dxt5_alpha p.1, flipColBlock p.2))

/-- Modelled from the spec: the half-height pairwise swap of block lines
(or scanlines): lines j and n-1-j trade places for j < n/2, each flipped
by f on the way; with an odd line count the middle line stays in place. -/
def flipBlockLines {α : Type} (f : α → α) (lines : List α) : List α :=
  List.ofFn (fun i : Fin lines.length =>
    if 2 * (i : Nat) + 1 = lines.length then lines.get i else f (lines.get i.rev))

/-- one decoded surface as the flip engine views it: either uncompressed
scanlines, or lines of compressed blocks of the image's DXT variant
(a line of a non-multiple-of-4-height image is a clamped, partial line). -/
inductive SurfaceData where
  | rgb (rows : List (List Nat))
  | dxt1 (lines : List (List DXTColBlock))
  | dxt3 (lines : List (List (DXT3AlphaBlock × DXTColBlock)))
  | dxt5 (lines : List (List (DXT5AlphaBlock × DXTColBlock)))
deriving DecidableEq

/-- Modelled from the spec: CDDSImage::flip, whose body is not in src/
(declaration only, nv_dds.h line 257); uncompressed surfaces get their
scanline order reversed; compressed surfaces get their block lines
swapped pairwise from top and bottom inward, flipping each block's
internal rows with the per-variant block routine. -/
def flip (s : SurfaceData) : SurfaceData :=
  match s with
  | .rgb rows => .rgb rows.reverse
  | .dxt1 lines => .dxt1 (flipBlockLines flip_blocks_dxtc1 lines)
  | .dxt3 lines => .dxt3 (flipBlockLines flip_blocks_dxtc3 lines)
  | .dxt5 lines => .dxt5 (flipBlockLines flip_blocks_dxtc5 lines)

/-- Modelled from the spec: CDDSImage::flip_texture, whose body is not in
src/ (declaration only, nv_dds.h line 258); it runs every surface of the
texture (base image and each mipmap) through the flip engine. -/
def flip_texture (t : List SurfaceData) : List SurfaceData :=
  t.map flip

/-- well-formedness of a DXT5 alpha block: its bitstream is six bytes. -/
def DXT5AlphaBlock.wfBytes (b : DXT5AlphaBlock) : Bool :=
  b.row.length == 6 && b.row.all (fun x => decide (x < 256))

/-- well-formedness of a surface for the flip engine: every DXT5 alpha
bitstream consists of six bytes (the other variants need no constraint
for the flip model). -/
def SurfaceData.wfBytes : SurfaceData → Bool
  | .rgb _ => true
  | .dxt1 _ => true
  | .dxt3 _ => true
  | .dxt5 lines => lines.all (fun line => line.all (fun p => p.1.wfBytes))

/-- well-formedness of a whole texture for the flip engine. -/
def textureWFBytes (t : List SurfaceData) : Bool :=
  t.all SurfaceData.wfBytes

/-- the DDS magic signature "DDS " as a little-endian doubleword. -/
def ddsMagic : Nat := 0x20534444

/-- whether a format value is one of the three compressed enums the
library produces (the format-level counterpart of is_compressed). -/
def compressedFormat (format : Nat) : Bool :=
  (format == GL_COMPRESSED_RGBA_S3TC_DXT1_EXT)
    || (format == GL_COMPRESSED_RGBA_S3TC_DXT3_EXT)
    || (format == GL_COMPRESSED_RGBA_S3TC_DXT5_EXT)

/-- a pixel format the decoder accepts: a supported DXT fourCC, or an
uncompressed format with 1 to 4 components. -/
def supportedFormat (format components : Nat) : Bool :=
  compressedFormat format
    || (decide (1 ≤ components) && decide (components ≤ 4))

/-- Modelled from the spec: the DDS header fields the decode and encode
paths consume — magic, dimensions, mipmap count (base level included),
the pixel-format block (abstracted to the derived format enum and
component count) and the caps/flags bits marking cubemaps and volumes.
The bodies of CDDSImage::load and CDDSImage::save are not in src/
(declarations only, nv_dds.h lines 135-137). -/
structure DDSHeader where
  magic : Nat
  width : Nat
  height : Nat
  depth : Nat
  mipMapCount : Nat
  format : Nat
  components : Nat
  cubemapFlag : Bool
  volumeFlag : Bool
deriving DecidableEq

/-- Modelled from the spec: width of mip level k, clamp_size(base >> k). -/
def levelWidth (hdr : DDSHeader) (k : Nat) : Nat :=
  clamp_size (hdr.width >>> k)

/-- Modelled from the spec: height of mip level k. -/
def levelHeight (hdr : DDSHeader) (k : Nat) : Nat :=
  clamp_size (hdr.height >>> k)

/-- Modelled from the spec: depth of mip level k; the depth axis is
clamped and halved only for volume textures, other textures carry the
header depth (0, meaning not applicable) at every level. -/
def levelDepth (hdr : DDSHeader) (k : Nat) : Nat :=
  if hdr.volumeFlag then clamp_size (hdr.depth >>> k) else hdr.depth

/-- Modelled from the spec: byte size of mip level k — the per-plane size
from the format arithmetic (size_dxtc when compressed, size_rgb when
uncompressed), times the level depth for volume textures. -/
def levelSize (hdr : DDSHeader) (k : Nat) : Nat :=
  (if compressedFormat hdr.format then
      size_dxtc hdr.format (levelWidth hdr k) (levelHeight hdr k)
    else
      size_rgb hdr.components (levelWidth hdr k) (levelHeight hdr k))
    * (if hdr.volumeFlag then levelDepth hdr k else 1)

/-- reading one surface of level k off the stream: takes levelSize bytes
or fails (a truncation error). -/
def readSurface (hdr : DDSHeader) (k : Nat) (data : List Nat) :
    Option (CSurface × List Nat) :=
  if levelSize hdr k ≤ data.length then
    some (⟨levelWidth hdr k, levelHeight hdr k, levelDepth hdr k,
           levelSize hdr k, data.take (levelSize hdr k)⟩,
          data.drop (levelSize hdr k))
  else
    none

/-- reading a run of mipmap surfaces starting at level k. -/
def readMipmaps (hdr : DDSHeader) : Nat → Nat → List Nat →
    Option (List CSurface × List Nat)
  | _, 0, data => some ([], data)
  | k, count + 1, data =>
      match readSurface hdr k data with
      | none => none
      | some (s, rest) =>
          match readMipmaps hdr (k + 1) count rest with
          | none => none
          | some (ms, rest2) => some (s :: ms, rest2)

/-- reading one texture: the base level then mipMapCount - 1 mipmaps in
descending-size order. -/
def readTexture (hdr : DDSHeader) (data : List Nat) :
    Option (CTexture × List Nat) :=
  match readSurface hdr 0 data with
  | none => none
  | some (base, rest) =>
      match readMipmaps hdr 1 (hdr.mipMapCount - 1) rest with
      | none => none
      | some (ms, rest2) => some (⟨base, ms⟩, rest2)

/-- reading n textures (cubemap faces in +X,-X,+Y,-Y,+Z,-Z order, or the
single texture of a flat/volume image). -/
def readFaces (hdr : DDSHeader) : Nat → List Nat →
    Option (List CTexture × List Nat)
  | 0, data => some ([], data)
  | n + 1, data =>
      match readTexture hdr data with
      | none => none
      | some (t, rest) =>
          match readFaces hdr n rest with
          | none => none
          | some (ts, rest2) => some (t :: ts, rest2)

/-- Modelled from the spec: the decode path (CDDSImage::load, body not in
src/) with flipImage = false: validate the magic and pixel format, derive
the texture type from the header flags, read 6 faces for a cubemap and 1
texture otherwise, and mark the image valid only when every declared
level was read without truncation. -/
def load_noflip (stream : DDSHeader × List Nat) : Option CDDSImage :=
  if stream.1.magic == ddsMagic
      && supportedFormat stream.1.format stream.1.components then
    (readFaces stream.1 (if stream.1.cubemapFlag then 6 else 1) stream.2).map
      (fun tsr =>
        ⟨stream.1.format, stream.1.components,
         if stream.1.cubemapFlag then TextureCubemap
         else if stream.1.volumeFlag then Texture3D
         else TextureFlat,
         true, tsr.1⟩)
  else
    none

/-- the image data bytes of one texture: the base surface's pixels, then
each mipmap's pixels in chain order. -/
def textureBytes (t : CTexture) : List Nat :=
  t.toCSurface.m_pixels ++ (t.m_mipmaps.map CSurface.m_pixels).flatten

/-- Modelled from the spec: the header the encode path writes for an
image — the first texture's base dimensions, a mipmap count that counts
the base level, the format metadata, and type flags from the tag. -/
def mkHeader (img : CDDSImage) (base : CTexture) : DDSHeader :=
  { magic := ddsMagic
    width := base.toCSurface.m_width
    height := base.toCSurface.m_height
    depth := base.toCSurface.m_depth
    mipMapCount := base.m_mipmaps.length + 1
    format := img.m_format
    components := img.m_components
    cubemapFlag := img.m_type == TextureCubemap
    volumeFlag := img.m_type == Texture3D }

/-- Modelled from the spec: the encode path (CDDSImage::save, body not in
src/) with flipImage = false: requires a valid, non-empty image and
writes the header followed by every texture's surfaces, faces in deque
order, base level first, then descending mipmaps. -/
def save_noflip (img : CDDSImage) : Option (DDSHeader × List Nat) :=
  match img.m_valid, img.m_images with
  | true, t :: rest =>
      some (mkHeader img t, ((t :: rest).map textureBytes).flatten)
  | _, _ => none

/-- a surface agrees with level k as the decoder derives it from the
header: dimensions, stored size and buffer length all match. -/
def surfaceMatches (hdr : DDSHeader) (k : Nat) (s : CSurface) : Bool :=
  (s.m_width == levelWidth hdr k) && (s.m_height == levelHeight hdr k)
    && (s.m_depth == levelDepth hdr k) && (s.m_size == levelSize hdr k)
    && (s.m_pixels.length == s.m_size)

/-- the mipmap chain agrees with consecutive levels starting at k. -/
def mipmapsMatch (hdr : DDSHeader) : Nat → List CSurface → Bool
  | _, [] => true
  | k, s :: ss => surfaceMatches hdr k s && mipmapsMatch hdr (k + 1) ss

/-- a texture agrees with the header: base is level 0, the chain length
matches the header's count, and mipmap i is level i + 1. -/
def textureMatches (hdr : DDSHeader) (t : CTexture) : Bool :=
  surfaceMatches hdr 0 t.toCSurface
    && (t.m_mipmaps.length + 1 == hdr.mipMapCount)
    && mipmapsMatch hdr 1 t.m_mipmaps

/-- a well-formed image for the encoder: valid, with the face count its
(set) type demands, a supported format, and every face agreeing with the
header derived from the first texture — the structural invariants the
spec requires of a fully populated image. -/
def wellFormedImage (img : CDDSImage) : Bool :=
  match img.m_valid, img.m_images with
  | true, t :: rest =>
      supportedFormat img.m_format img.m_components
        && (match img.m_type with
            | TextureCubemap => (t :: rest).length == 6
            | Texture3D => rest.isEmpty
            | TextureFlat => rest.isEmpty
            | TextureNone => false)
        && (t :: rest).all (textureMatches (mkHeader img t))
  | _, _ => false

/-- a texture with surfaces of all four variants, the compressed ones with
one partial (clamped) block line, as for a non-multiple-of-4 height. -/
def texAllVariants : List SurfaceData :=
  [SurfaceData.rgb [[1, 2, 3], [4, 5, 6], [7, 8, 9]],
   SurfaceData.dxt1 [[DXTColBlock.mk 1 2 [3, 4, 5, 6]],
                     [DXTColBlock.mk 7 8 [9, 10, 11, 12]]],
   SurfaceData.dxt3 [[(DXT3AlphaBlock.mk [1, 2, 3, 4], DXTColBlock.mk 5 6 [7, 8, 9, 10])]],
   SurfaceData.dxt5 [[(DXT5AlphaBlock.mk 11 22 [3, 4, 5, 6, 7, 8],
                       DXTColBlock.mk 9 10 [11, 12, 13, 14])]]]

section Lemmas

/-- Masking a 32-bit value with 0xFFFFFFE0 (the unsigned image of the int
literal -32) clears the low five bits, i.e. rounds down to a multiple of 32. -/
theorem and_mask32 (x : Nat) (hx : x < 4294967296) :
    x &&& 4294967264 = 32 * (x / 32) := by
  have hmask : (4294967264 : Nat) = (2 ^ 27 - 1) <<< 5 := by
    norm_num [Nat.shiftLeft_eq]
  have hrhs : 32 * (x / 32) = (x >>> 5) <<< 5 := by
    rw [Nat.shiftLeft_eq, Nat.shiftRight_eq_div_pow]
    norm_num [Nat.mul_comm]
  apply Nat.eq_of_testBit_eq
  intro i
  rw [Nat.testBit_and, hmask, hrhs, Nat.testBit_shiftLeft, Nat.testBit_shiftLeft,
    Nat.testBit_shiftRight, Nat.testBit_two_pow_sub_one]
  by_cases h5 : 5 ≤ i
  · have h55 : 5 + (i - 5) = i := by omega
    rw [h55]
    by_cases h32 : i < 32
    · have hlt : i - 5 < 27 := by omega
      simp [h5, hlt, ge_iff_le]
    · have hbit : x.testBit i = false := by
        apply Nat.testBit_lt_two_pow
        calc x < 4294967296 := hx
          _ ≤ 2 ^ i := by
            have h2 : (4294967296 : Nat) = 2 ^ 32 := by norm_num
            rw [h2]
            exact Nat.pow_le_pow_right (by norm_num) (by omega)
      have hge : ¬ (i - 5 < 27) := by omega
      simp [hbit, hge]
  · simp [h5, ge_iff_le]

/-- When the 32-bit stride computation does not wrap, the source formula
computes four times the number of 32-bit words covering one scanline. -/
theorem linesize_no_overflow (width bpp : Nat) (h : width * bpp + 31 < 4294967296) :
    get_dword_aligned_linesize width bpp = 4 * ((width * bpp + 31) / 32) := by
  have h1 : width * bpp % 4294967296 = width * bpp := Nat.mod_eq_of_lt (by omega)
  have h2 : (width * bpp + 31) % 4294967296 = width * bpp + 31 := Nat.mod_eq_of_lt h
  rw [get_dword_aligned_linesize, h1, h2, and_mask32 _ h, Nat.shiftRight_eq_div_pow]
  omega

/-- decoding the six bytes of a 48-bit value recovers the value. -/
theorem natOfBytes_bytesOfNat48 (m : Nat) (h : m < 281474976710656) :
    natOfBytes (bytesOfNat48 m) = m := by
  simp [natOfBytes, bytesOfNat48]
  omega

/-- re-encoding the 48-bit value of six bytes recovers the bytes. -/
theorem bytesOfNat48_natOfBytes (b0 b1 b2 b3 b4 b5 : Nat)
    (h0 : b0 < 256) (h1 : b1 < 256) (h2 : b2 < 256) (h3 : b3 < 256)
    (h4 : b4 < 256) (h5 : b5 < 256) :
    bytesOfNat48 (natOfBytes [b0, b1, b2, b3, b4, b5]) = [b0, b1, b2, b3, b4, b5] := by
  simp [natOfBytes, bytesOfNat48, List.cons.injEq]
  omega

/-- six bytes decode below 2^48. -/
theorem natOfBytes_lt (b0 b1 b2 b3 b4 b5 : Nat)
    (h0 : b0 < 256) (h1 : b1 < 256) (h2 : b2 < 256) (h3 : b3 < 256)
    (h4 : b4 < 256) (h5 : b5 < 256) :
    natOfBytes [b0, b1, b2, b3, b4, b5] < 281474976710656 := by
  simp [natOfBytes]
  omega

theorem flipRows48_lt (n : Nat) : flipRows48 n < 281474976710656 := by
  simp only [flipRows48]
  omega

/-- row reversal on explicit 12-bit digits. -/
theorem flipRows48_digits (d0 d1 d2 d3 : Nat)
    (h0 : d0 < 4096) (h1 : d1 < 4096) (h2 : d2 < 4096) (h3 : d3 < 4096) :
    flipRows48 (d3 + 4096 * d2 + 16777216 * d1 + 68719476736 * d0)
      = d0 + 4096 * d1 + 16777216 * d2 + 68719476736 * d3 := by
  simp only [flipRows48]
  omega

/-- reversing the four packed rows twice restores a 48-bit bitstream. -/
theorem flipRows48_invol (n : Nat) (h : n < 281474976710656) :
    flipRows48 (flipRows48 n) = n := by
  have hdef : flipRows48 n
      = n / 68719476736 % 4096 + 4096 * (n / 16777216 % 4096)
        + 16777216 * (n / 4096 % 4096) + 68719476736 * (n % 4096) := rfl
  rw [hdef, flipRows48_digits (n % 4096) (n / 4096 % 4096) (n / 16777216 % 4096)
    (n / 68719476736 % 4096) (by omega) (by omega) (by omega) (by omega)]
  have e1 : n / 16777216 = n / 4096 / 4096 := by
    rw [Nat.div_div_eq_div_mul]
  have e2 : n / 68719476736 = n / 16777216 / 4096 := by
    rw [Nat.div_div_eq_div_mul]
  omega

/-- flipping a well-formed DXT5 alpha block twice restores it. -/
theorem flip_dxt5_alpha_invol (b : DXT5AlphaBlock) (h : b.wfBytes = true) :
    flip_dxt5_alpha (flip_dxt5_alpha b) = b := by
  rcases b with ⟨a0, a1, row⟩
  simp only [DXT5AlphaBlock.wfBytes, Bool.and_eq_true, beq_iff_eq, List.all_eq_true,
    decide_eq_true_eq] at h
  obtain ⟨hlen, hlt⟩ := h
  rcases row with _ | ⟨b0, _ | ⟨b1, _ | ⟨b2, _ | ⟨b3, _ | ⟨b4, _ | ⟨b5, rest⟩⟩⟩⟩⟩⟩ <;>
    simp only [List.length_nil, List.length_cons] at hlen
  · omega
  · omega
  · omega
  · omega
  · omega
  · omega
  · have hrest : rest = [] := by
      cases rest with
      | nil => rfl
      | cons x xs => simp at hlen
    subst hrest
    have hb0 : b0 < 256 := hlt b0 (by simp)
    have hb1 : b1 < 256 := hlt b1 (by simp)
    have hb2 : b2 < 256 := hlt b2 (by simp)
    have hb3 : b3 < 256 := hlt b3 (by simp)
    have hb4 : b4 < 256 := hlt b4 (by simp)
    have hb5 : b5 < 256 := hlt b5 (by simp)
    have hn := natOfBytes_lt b0 b1 b2 b3 b4 b5 hb0 hb1 hb2 hb3 hb4 hb5
    simp only [flip_dxt5_alpha]
    rw [natOfBytes_bytesOfNat48 _ (flipRows48_lt _), flipRows48_invol _ hn,
      bytesOfNat48_natOfBytes b0 b1 b2 b3 b4 b5 hb0 hb1 hb2 hb3 hb4 hb5]

theorem flipColBlock_invol (b : DXTColBlock) :
    flipColBlock (flipColBlock b) = b := by
  rcases b with ⟨c0, c1, row⟩
  simp [flipColBlock]

theorem flipDXT3Alpha_invol (a : DXT3AlphaBlock) :
    flipDXT3Alpha (flipDXT3Alpha a) = a := by
  rcases a with ⟨row⟩
  simp [flipDXT3Alpha]

/-- the half-height pairwise swap is involutive whenever the per-line
flip is involutive on the lines present. -/
theorem flipBlockLines_invol {α : Type} (f : α → α) (lines : List α)
    (hf : ∀ x ∈ lines, f (f x) = x) :
    flipBlockLines f (flipBlockLines f lines) = lines := by
  apply List.ext_getElem
  · simp [flipBlockLines]
  · intro i h1 h2
    simp only [flipBlockLines, List.getElem_ofFn, List.get_eq_getElem, Fin.val_rev,
      List.length_ofFn, Fin.coe_cast, Fin.val_mk] at h1 ⊢
    by_cases hmid : 2 * i + 1 = lines.length
    · simp [hmid]
    · simp only [hmid, if_false]
      have hmid2 : ¬ (2 * (lines.length - (i + 1)) + 1 = lines.length) := by omega
      simp only [hmid2, if_false]
      have hii : lines.length - (lines.length - (i + 1) + 1) = i := by omega
      simp only [hii]
      exact hf _ (List.getElem_mem h2)

theorem flip_blocks_dxtc1_invol (line : List DXTColBlock) :
    flip_blocks_dxtc1 (flip_blocks_dxtc1 line) = line := by
  simp only [flip_blocks_dxtc1, List.map_map]
  have hpt : ∀ x ∈ line, (flipColBlock ∘ flipColBlock) x = x := by
    intro x _
    exact flipColBlock_invol x
  rw [List.map_congr_left hpt, List.map_id']

theorem flip_blocks_dxtc3_invol (line : List (DXT3AlphaBlock × DXTColBlock)) :
    flip_blocks_dxtc3 (flip_blocks_dxtc3 line) = line := by
  simp only [flip_blocks_dxtc3, List.map_map]
  have hpt : ∀ x ∈ line,
      ((fun p : DXT3AlphaBlock × DXTColBlock =>
          (flipDXT3Alpha p.1, flipColBlock p.2)) ∘
        (fun p : DXT3AlphaBlock × DXTColBlock =>
          (flipDXT3Alpha p.1, flipColBlock p.2))) x = x := by
    intro x _
    simp only [Function.comp_apply]
    rw [flipDXT3Alpha_invol, flipColBlock_invol]
  rw [List.map_congr_left hpt, List.map_id']

theorem flip_blocks_dxtc5_invol (line : List (DXT5AlphaBlock × DXTColBlock))
    (h : ∀ p ∈ line, p.1.wfBytes = true) :
    flip_blocks_dxtc5 (flip_blocks_dxtc5 line) = line := by
  simp only [flip_blocks_dxtc5, List.map_map]
  have : ∀ p ∈ line,
      ((fun p : DXT5AlphaBlock × DXTColBlock =>
          (flip_dxt5_alpha p.1, flipColBlock p.2)) ∘
        (fun p : DXT5AlphaBlock × DXTColBlock =>
          (flip_dxt5_alpha p.1, flipColBlock p.2))) p = p := by
    intro p hp
    simp only [Function.comp_apply]
    rw [flip_dxt5_alpha_invol p.1 (h p hp), flipColBlock_invol]
  rw [List.map_congr_left this, List.map_id']

/-- flipping a well-formed surface twice restores it. -/
theorem flip_flip (s : SurfaceData) (h : s.wfBytes = true) :
    flip (flip s) = s := by
  cases s with
  | rgb rows => simp [flip]
  | dxt1 lines =>
      simp only [flip]
      rw [flipBlockLines_invol flip_blocks_dxtc1 lines
        (fun x _ => flip_blocks_dxtc1_invol x)]
  | dxt3 lines =>
      simp only [flip]
      rw [flipBlockLines_invol flip_blocks_dxtc3 lines
        (fun x _ => flip_blocks_dxtc3_invol x)]
  | dxt5 lines =>
      simp only [flip]
      rw [flipBlockLines_invol flip_blocks_dxtc5 lines]
      intro line hline
      apply flip_blocks_dxtc5_invol
      intro p hp
      simp only [SurfaceData.wfBytes, List.all_eq_true] at h
      exact h line hline p hp

/-- reading a level from a stream that starts with a matching surface's
pixels yields exactly that surface and the remaining stream. -/
theorem readSurface_append (hdr : DDSHeader) (k : Nat) (s : CSurface)
    (rest : List Nat) (h : surfaceMatches hdr k s = true) :
    readSurface hdr k (s.m_pixels ++ rest) = some (s, rest) := by
  rcases s with ⟨w, hgt, d, sz, px⟩
  simp only [surfaceMatches, Bool.and_eq_true, beq_iff_eq] at h
  obtain ⟨⟨⟨⟨hw, hh⟩, hd⟩, hs⟩, hp⟩ := h
  have hlen : px.length = levelSize hdr k := by omega
  rw [readSurface, if_pos (by simp [List.length_append]; omega)]
  rw [List.take_left' hlen, List.drop_left' hlen, hw, hh, hd, hs]

/-- reading a run of levels from a stream that starts with the matching
mipmap chain's bytes yields exactly that chain. -/
theorem readMipmaps_append (hdr : DDSHeader) (ms : List CSurface) (k : Nat)
    (rest : List Nat) (h : mipmapsMatch hdr k ms = true) :
    readMipmaps hdr k ms.length ((ms.map CSurface.m_pixels).flatten ++ rest)
      = some (ms, rest) := by
  induction ms generalizing k rest with
  | nil => rfl
  | cons s ss ih =>
      simp only [mipmapsMatch, Bool.and_eq_true] at h
      obtain ⟨h1, h2⟩ := h
      simp only [List.map_cons, List.flatten_cons, List.length_cons, List.append_assoc]
      rw [readMipmaps]
      simp only [readSurface_append hdr k s _ h1, ih (k + 1) rest h2]

/-- reading one texture from a stream that starts with the matching
texture's bytes yields exactly that texture. -/
theorem readTexture_append (hdr : DDSHeader) (t : CTexture) (rest : List Nat)
    (h : textureMatches hdr t = true) :
    readTexture hdr (textureBytes t ++ rest) = some (t, rest) := by
  rcases t with ⟨base, mips⟩
  simp only [textureMatches, Bool.and_eq_true, beq_iff_eq] at h
  obtain ⟨⟨h0, hcount⟩, hmips⟩ := h
  have hmm : hdr.mipMapCount - 1 = mips.length := by omega
  rw [readTexture, textureBytes]
  simp only [List.append_assoc]
  simp only [readSurface_append hdr 0 base _ h0, hmm,
    readMipmaps_append hdr mips 1 rest hmips]

/-- reading as many faces as a list of matching textures provides, from a
stream holding exactly their bytes, yields exactly those textures. -/
theorem readFaces_append (hdr : DDSHeader) (ts : List CTexture) (rest : List Nat)
    (h : ∀ t ∈ ts, textureMatches hdr t = true) :
    readFaces hdr ts.length ((ts.map textureBytes).flatten ++ rest)
      = some (ts, rest) := by
  induction ts generalizing rest with
  | nil => rfl
  | cons t ts ih =>
      simp only [List.map_cons, List.flatten_cons, List.length_cons, List.append_assoc]
      rw [readFaces]
      simp only [readTexture_append hdr t _ (h t (by simp)),
        ih rest (fun x hx => h x (by simp [hx]))]

/-- reading exactly the faces a matching texture list serialized to. -/
theorem readFaces_exact (hdr : DDSHeader) (ts : List CTexture)
    (h : ∀ t ∈ ts, textureMatches hdr t = true) :
    readFaces hdr ts.length ((ts.map textureBytes).flatten) = some (ts, []) := by
  have hr := readFaces_append hdr ts [] h
  rwa [List.append_nil] at hr

end Lemmas

/-- C2: get_dword_aligned_linesize(w, bpp) equals ((w*bpp + 31) AND NOT 31) >> 3
in 32-bit unsigned arithmetic (NOT 31 being the mask 4294967264); absent
overflow this is the scanline byte count rounded up to the next multiple of
4 bytes; and the two concrete values of the spec hold. -/
theorem C2_dword_aligned_linesize :
    (∀ width bpp : Nat,
      get_dword_aligned_linesize width bpp
        = (((width * bpp + 31) % 4294967296) &&& 4294967264) >>> 3)
    ∧ (∀ width bpp : Nat, width * bpp + 31 < 4294967296 →
        get_dword_aligned_linesize width bpp
          = 4 * (((width * bpp + 7) / 8 + 3) / 4))
    ∧ get_dword_aligned_linesize 3 24 = 12
    ∧ get_dword_aligned_linesize 1 24 = 4 := by
  refine ⟨?_, ?_, by decide, by decide⟩
  · intro width bpp
    rw [get_dword_aligned_linesize, Nat.mod_add_mod]
  · intro width bpp h
    rw [linesize_no_overflow width bpp h]
    omega

/-- C2 witness: the no-overflow clause instantiated at width 3, 24 bits
per pixel. -/
theorem C2_witness :
    3 * 24 + 31 < 4294967296
    ∧ get_dword_aligned_linesize 3 24 = 4 * (((3 * 24 + 7) / 8 + 3) / 4) :=
  ⟨by decide, C2_dword_aligned_linesize.2.1 3 24 (by decide)⟩

/-- C3 counterexample: an image whose format is the opaque DXT1 enum
(GL_COMPRESSED_RGB_S3TC_DXT1_EXT, 0x83F0) is classified as NOT compressed
by is_compressed, contradicting the claim that every DXT1 variant
(opaque or 1-bit alpha) is classified as compressed. -/
theorem C3_counterexample :
    imgOpaqueDXT1.m_format = GL_COMPRESSED_RGB_S3TC_DXT1_EXT
    ∧ imgOpaqueDXT1.is_compressed = false := by
  constructor <;> rfl

/-- C3 amended: is_compressed returns true exactly for the three RGBA S3TC
enums (DXT1-with-alpha 0x83F1, DXT3 0x83F2, DXT5 0x83F3); every other
format — including opaque DXT1 0x83F0 and all uncompressed formats — is
classified as not compressed. -/
theorem C3_is_compressed_amended (img : CDDSImage) :
    img.is_compressed = true
      ↔ (img.m_format = GL_COMPRESSED_RGBA_S3TC_DXT1_EXT
          ∨ img.m_format = GL_COMPRESSED_RGBA_S3TC_DXT3_EXT
          ∨ img.m_format = GL_COMPRESSED_RGBA_S3TC_DXT5_EXT) := by
  simp [CDDSImage.is_compressed, or_assoc]

/-- C6 counterexample: a valid image of width 2^29 with one component has
width * components divisible by 4, yet is_dword_aligned returns false,
because the 32-bit stride computation wraps; so the claimed equivalence
with 4-divisibility fails as stated. -/
theorem C6_counterexample :
    imgOverflowWidth.m_valid = true
    ∧ 536870912 * 1 % 4 = 0
    ∧ imgOverflowWidth.is_dword_aligned = some false := by
  refine ⟨rfl, by decide, by decide⟩

/-- C6 amended: on an invalid image is_dword_aligned fails fast; on a valid
non-empty image it returns the comparison of the 32-bit dword-aligned
stride with the naive width * components line size, and — provided the
stride computation does not overflow 32 bits — that comparison is true
iff width * components is a multiple of 4. -/
theorem C6_is_dword_aligned_amended :
    (∀ img : CDDSImage, img.m_valid = false → img.is_dword_aligned = none)
    ∧ (∀ (img : CDDSImage) (t : CTexture) (rest : List CTexture),
        img.m_valid = true → img.m_images = t :: rest →
        img.is_dword_aligned
            = some (get_dword_aligned_linesize t.toCSurface.m_width
                      (img.m_components * 8 % 4294967296)
                    == t.toCSurface.m_width * img.m_components % 4294967296)
          ∧ (t.toCSurface.m_width * img.m_components * 8 + 31 < 4294967296 →
              (img.is_dword_aligned = some true
                ↔ t.toCSurface.m_width * img.m_components % 4 = 0))) := by
  constructor
  · intro img h
    rcases img with ⟨f, c, ty, v, imgs⟩
    simp only at h
    subst h
    cases imgs <;> rfl
  · intro img t rest hv himg
    rcases img with ⟨f, c, ty, v, imgs⟩
    simp only at hv himg
    subst hv
    subst himg
    refine ⟨rfl, ?_⟩
    intro hno
    simp only at hno
    show some (get_dword_aligned_linesize t.toCSurface.m_width (c * 8 % 4294967296)
            == t.toCSurface.m_width * c % 4294967296) = some true
          ↔ t.toCSurface.m_width * c % 4 = 0
    by_cases hw : t.toCSurface.m_width = 0
    · rw [hw]
      have hz : get_dword_aligned_linesize 0 (c * 8 % 4294967296) = 0 := by
        rw [get_dword_aligned_linesize, Nat.zero_mul]
        decide
      rw [hz]
      simp
    · have hwpos : 1 ≤ t.toCSurface.m_width := Nat.one_le_iff_ne_zero.mpr hw
      have hble : c * 8 ≤ t.toCSurface.m_width * c * 8 := by
        rw [Nat.mul_assoc]
        exact Nat.le_mul_of_pos_left (c * 8) hwpos
      have hbpp : c * 8 % 4294967296 = c * 8 := Nat.mod_eq_of_lt (by omega)
      have hwc : t.toCSurface.m_width * c % 4294967296 = t.toCSurface.m_width * c := by
        apply Nat.mod_eq_of_lt
        have : t.toCSurface.m_width * c ≤ t.toCSurface.m_width * c * 8 :=
          Nat.le_mul_of_pos_right _ (by norm_num)
        omega
      have hmul : t.toCSurface.m_width * (c * 8) = t.toCSurface.m_width * c * 8 :=
        (Nat.mul_assoc _ _ _).symm
      rw [hbpp, hwc]
      have hls : get_dword_aligned_linesize t.toCSurface.m_width (c * 8)
          = 4 * ((t.toCSurface.m_width * c * 8 + 31) / 32) := by
        rw [get_dword_aligned_linesize, hmul]
        have h1 : t.toCSurface.m_width * c * 8 % 4294967296
            = t.toCSurface.m_width * c * 8 := Nat.mod_eq_of_lt (by omega)
        have h2 : (t.toCSurface.m_width * c * 8 + 31) % 4294967296
            = t.toCSurface.m_width * c * 8 + 31 := Nat.mod_eq_of_lt hno
        rw [h1, h2, and_mask32 _ hno, Nat.shiftRight_eq_div_pow]
        omega
      rw [hls]
      simp only [Option.some.injEq, beq_iff_eq]
      constructor
      · intro heq
        generalize hy : t.toCSurface.m_width * c = y at heq
        omega
      · intro hdvd
        generalize hy : t.toCSurface.m_width * c = y at hdvd ⊢
        omega

/-- C6 witness: the amended characterization instantiated at a concrete
valid 4 x 1 RGB image (width * components = 12, a multiple of 4). -/
theorem C6_witness :
    imgAligned4x1.m_valid = true
    ∧ imgAligned4x1.m_images
        = [{ toCSurface := { m_width := 4, m_height := 1, m_depth := 0, m_size := 12,
                             m_pixels := [1, 2, 3, 4, 5, 6, 7, 8, 9, 10, 11, 12] }
             m_mipmaps := [] }]
    ∧ 4 * 3 * 8 + 31 < 4294967296
    ∧ (imgAligned4x1.is_dword_aligned = some true ↔ 4 * 3 % 4 = 0) :=
  ⟨rfl, rfl, by decide,
    ((C6_is_dword_aligned_amended.2 imgAligned4x1 _ [] rfl rfl).2 (by decide))⟩

/-- C7: CTexture::get_mipmap returns the surface stored at an in-range
index, and fails fast (returns none, i.e. an assertion fires) whenever
the index is out of range — in particular on an empty mipmap chain. -/
theorem C7_texture_get_mipmap_spec (t : CTexture) (index : Nat) :
    (∀ h : index < t.m_mipmaps.length,
        t.get_mipmap index = some (t.m_mipmaps.get ⟨index, h⟩))
    ∧ (t.m_mipmaps.length ≤ index → t.get_mipmap index = none) := by
  constructor
  · intro h
    have hne : ¬ t.m_mipmaps.isEmpty = true := by
      cases hm : t.m_mipmaps with
      | nil => rw [hm] at h; simp at h
      | cons a l => simp [hm]
    rw [CTexture.get_mipmap, if_pos ⟨hne, h⟩, List.getElem?_eq_getElem h]
    simp
  · intro h
    have hng : ¬ (¬ t.m_mipmaps.isEmpty = true ∧ index < t.m_mipmaps.length) := by
      rintro ⟨-, h2⟩
      omega
    rw [CTexture.get_mipmap, if_neg hng]

/-- C7 witness: in-range and out-of-range access on a concrete one-level
mipmap chain. -/
theorem C7_witness :
    (0 < (CTexture.mk (CSurface.mk 2 2 0 4 [1, 1, 1, 1]) [CSurface.mk 1 1 0 1 [9]]).m_mipmaps.length
      ∧ (CTexture.mk (CSurface.mk 2 2 0 4 [1, 1, 1, 1])
          [CSurface.mk 1 1 0 1 [9]]).get_mipmap 0 = some (CSurface.mk 1 1 0 1 [9])) :=
  ⟨by decide,
    (C7_texture_get_mipmap_spec
      (CTexture.mk (CSurface.mk 2 2 0 4 [1, 1, 1, 1]) [CSurface.mk 1 1 0 1 [9]]) 0).1
      (by decide)⟩

/-- C8: get_cubemap_face returns the texture stored at position face when
the image is valid, holds exactly six textures, is of cubemap type and
face < 6; violating any of these preconditions makes it fail fast
(none, i.e. an assertion fires). -/
theorem C8_get_cubemap_face_spec (img : CDDSImage) (face : Nat) :
    (∀ (hv : img.m_valid = true) (hlen : img.m_images.length = 6)
        (hty : img.m_type = TextureCubemap) (h : face < 6),
      img.get_cubemap_face face = some img.m_images[face])
    ∧ (¬ (img.m_valid = true ∧ img.m_images.length = 6
            ∧ img.m_type = TextureCubemap ∧ face < 6) →
        img.get_cubemap_face face = none) := by
  constructor
  · intro hv hlen hty h
    have hne : img.m_images ≠ [] := by
      intro hnil
      rw [hnil] at hlen
      simp at hlen
    rw [CDDSImage.get_cubemap_face, if_pos ⟨hv, hne, hlen, hty, h⟩,
      List.getElem?_eq_getElem (by omega)]
  · intro hbad
    rw [CDDSImage.get_cubemap_face, if_neg]
    rintro ⟨h1, h2, h3, h4, h5⟩
    exact hbad ⟨h1, h3, h4, h5⟩

/-- C8 witness: face 1 (the -X slot) of a concrete valid six-face cubemap. -/
theorem C8_witness :
    (CDDSImage.mk 0x83F1 4 TextureCubemap true
        [CTexture.mk (CSurface.mk 4 4 0 8 [0]) [],
         CTexture.mk (CSurface.mk 4 4 0 8 [1]) [],
         CTexture.mk (CSurface.mk 4 4 0 8 [2]) [],
         CTexture.mk (CSurface.mk 4 4 0 8 [3]) [],
         CTexture.mk (CSurface.mk 4 4 0 8 [4]) [],
         CTexture.mk (CSurface.mk 4 4 0 8 [5]) []]).m_valid = true
    ∧ (1 : Nat) < 6
    ∧ (CDDSImage.mk 0x83F1 4 TextureCubemap true
        [CTexture.mk (CSurface.mk 4 4 0 8 [0]) [],
         CTexture.mk (CSurface.mk 4 4 0 8 [1]) [],
         CTexture.mk (CSurface.mk 4 4 0 8 [2]) [],
         CTexture.mk (CSurface.mk 4 4 0 8 [3]) [],
         CTexture.mk (CSurface.mk 4 4 0 8 [4]) [],
         CTexture.mk (CSurface.mk 4 4 0 8 [5]) []]).get_cubemap_face 1
        = some (CTexture.mk (CSurface.mk 4 4 0 8 [1]) []) :=
  ⟨rfl, by decide,
    (C8_get_cubemap_face_spec
      (CDDSImage.mk 0x83F1 4 TextureCubemap true
        [CTexture.mk (CSurface.mk 4 4 0 8 [0]) [],
         CTexture.mk (CSurface.mk 4 4 0 8 [1]) [],
         CTexture.mk (CSurface.mk 4 4 0 8 [2]) [],
         CTexture.mk (CSurface.mk 4 4 0 8 [3]) [],
         CTexture.mk (CSurface.mk 4 4 0 8 [4]) [],
         CTexture.mk (CSurface.mk 4 4 0 8 [5]) []]) 1).1 rfl rfl rfl (by decide)⟩

/-- C10: add_mipmap appends the surface at the end of the mipmap chain:
the count grows by one, the new last index holds the added surface, and
every previously valid index still returns the same surface. -/
theorem C10_add_mipmap_spec (t : CTexture) (s : CSurface) :
    (t.add_mipmap s).get_num_mipmaps = t.get_num_mipmaps + 1
    ∧ (t.add_mipmap s).get_mipmap t.get_num_mipmaps = some s
    ∧ (∀ i, i < t.get_num_mipmaps →
        (t.add_mipmap s).get_mipmap i = t.get_mipmap i) := by
  refine ⟨?_, ?_, ?_⟩
  · simp [CTexture.add_mipmap, CTexture.get_num_mipmaps]
  · rw [CTexture.add_mipmap, CTexture.get_mipmap, CTexture.get_num_mipmaps]
    simp
  · intro i hi
    rw [CTexture.get_num_mipmaps] at hi
    rw [CTexture.add_mipmap, CTexture.get_mipmap, CTexture.get_mipmap]
    simp only [List.length_append, List.length_cons, List.length_nil, List.isEmpty_iff]
    have hne : ¬ t.m_mipmaps ++ [s] = [] := by simp
    have hne2 : ¬ t.m_mipmaps = [] := by
      intro hnil
      rw [hnil] at hi
      simp at hi
    have hi2 : i < t.m_mipmaps.length + (0 + 1) := by omega
    rw [if_pos ⟨hne, hi2⟩, if_pos ⟨hne2, hi⟩, List.getElem?_append, if_pos hi]

/-- C10 witness: appending to a concrete one-level chain. -/
theorem C10_witness :
    (0 : Nat) < (CTexture.mk (CSurface.mk 2 2 0 4 [5, 5, 5, 5])
        [CSurface.mk 1 1 0 1 [7]]).get_num_mipmaps
    ∧ ((CTexture.mk (CSurface.mk 2 2 0 4 [5, 5, 5, 5])
        [CSurface.mk 1 1 0 1 [7]]).add_mipmap (CSurface.mk 1 1 0 1 [8])).get_mipmap 0
        = (CTexture.mk (CSurface.mk 2 2 0 4 [5, 5, 5, 5])
            [CSurface.mk 1 1 0 1 [7]]).get_mipmap 0 :=
  ⟨by decide,
    (C10_add_mipmap_spec
      (CTexture.mk (CSurface.mk 2 2 0 4 [5, 5, 5, 5]) [CSurface.mk 1 1 0 1 [7]])
      (CSurface.mk 1 1 0 1 [8])).2.2 0 (by decide)⟩

/-- C1 counterexample: on an invalid (default-constructed) image the
metadata accessor get_components does NOT fail fast: it returns the stored
default component count rather than raising an assertion, contradicting
the claim that every accessor, including get_components, get_format and
get_type, asserts validity before returning data. -/
theorem C1_counterexample :
    (CDDSImage.mk 0 0 TextureNone false []).m_valid = false
    ∧ (CDDSImage.mk 0 0 TextureNone false []).get_components ≠ none
    ∧ (CDDSImage.mk 0 0 TextureNone false []).get_components = some 0 := by
  refine ⟨rfl, by decide, rfl⟩

/-- C1 amended: on an invalid image every data accessor — operator uint8_t*,
get_width, get_height, get_depth, get_size, get_num_mipmaps, get_mipmap,
get_cubemap_face — fails fast (none), while the three metadata accessors
get_components, get_format and get_type perform no check and return the
stored (possibly stale or default) field values. -/
theorem C1_invalid_accessors (img : CDDSImage) (h : img.m_valid = false) :
    img.asBytes = none
    ∧ img.get_width = none
    ∧ img.get_height = none
    ∧ img.get_depth = none
    ∧ img.get_size = none
    ∧ img.get_num_mipmaps = none
    ∧ (∀ index, img.get_mipmap index = none)
    ∧ (∀ face, img.get_cubemap_face face = none)
    ∧ img.get_components = some img.m_components
    ∧ img.get_format = some img.m_format
    ∧ img.get_type = some img.m_type := by
  rcases img with ⟨f, c, ty, v, imgs⟩
  simp only at h
  subst h
  refine ⟨?_, ?_, ?_, ?_, ?_, ?_, ?_, ?_, rfl, rfl, rfl⟩
  · cases imgs <;> rfl
  · cases imgs <;> rfl
  · cases imgs <;> rfl
  · cases imgs <;> rfl
  · cases imgs <;> rfl
  · cases imgs <;> rfl
  · intro index
    cases imgs <;> rfl
  · intro face
    rw [CDDSImage.get_cubemap_face, if_neg]
    rintro ⟨h1, -⟩
    simp at h1

/-- C1 witness: the amended statement at the default-constructed image. -/
theorem C1_witness :
    (CDDSImage.mk 0 0 TextureNone false []).m_valid = false
    ∧ (CDDSImage.mk 0 0 TextureNone false []).get_width = none :=
  ⟨rfl, (C1_invalid_accessors (CDDSImage.mk 0 0 TextureNone false []) rfl).2.1⟩

/-- C5: for every texture of every variant (uncompressed, DXT1, DXT3,
DXT5), including partial final block lines as arise from heights that are
not a multiple of 4, flipping vertically twice restores the texture
byte-for-byte (well-formedness: each DXT5 alpha bitstream is six bytes). -/
theorem C5_flip_texture_involutive (t : List SurfaceData)
    (h : textureWFBytes t = true) :
    flip_texture (flip_texture t) = t := by
  simp only [flip_texture, List.map_map]
  have hpt : ∀ s ∈ t, (flip ∘ flip) s = s := by
    intro s hs
    simp only [Function.comp_apply]
    apply flip_flip
    simp only [textureWFBytes, List.all_eq_true] at h
    exact h s hs
  rw [List.map_congr_left hpt, List.map_id']

/-- C5 witness: the double flip at a concrete texture holding surfaces of
all four variants. -/
theorem C5_witness :
    textureWFBytes texAllVariants = true
    ∧ flip_texture (flip_texture texAllVariants) = texAllVariants :=
  ⟨by decide, C5_flip_texture_involutive texAllVariants (by decide)⟩

/-- C9: the block layouts meet the per-block byte budget: a color block
serializes to 8 bytes (so a DXT1 block is 8 bytes), a DXT3 alpha
sub-block plus color block and a DXT5 alpha sub-block plus color block
serialize to 16 bytes, and size_dxtc counts exactly these block sizes
(8 for DXT1, 16 for DXT3/DXT5) per 4 x 4 block. -/
theorem C9_block_layout (c : DXTColBlock) (a3 : DXT3AlphaBlock) (a5 : DXT5AlphaBlock)
    (hc : c.row.length = 4) (h3 : a3.row.length = 4) (h5 : a5.row.length = 6) :
    c.serialize.length = 8
    ∧ (a3.serialize ++ c.serialize).length = 16
    ∧ (a5.serialize ++ c.serialize).length = 16
    ∧ (∀ w h, size_dxtc GL_COMPRESSED_RGBA_S3TC_DXT1_EXT w h
        = (w + 3) / 4 * ((h + 3) / 4) * c.serialize.length)
    ∧ (∀ w h, size_dxtc GL_COMPRESSED_RGBA_S3TC_DXT3_EXT w h
        = (w + 3) / 4 * ((h + 3) / 4) * (a3.serialize ++ c.serialize).length)
    ∧ (∀ w h, size_dxtc GL_COMPRESSED_RGBA_S3TC_DXT5_EXT w h
        = (w + 3) / 4 * ((h + 3) / 4) * (a5.serialize ++ c.serialize).length) := by
  have hcl : c.serialize.length = 8 := by
    simp [DXTColBlock.serialize, bytesOfU16, hc]
  have h3l : a3.serialize.length = 8 := by
    rcases a3 with ⟨row⟩
    simp only at h3
    rcases row with _ | ⟨r0, _ | ⟨r1, _ | ⟨r2, _ | ⟨r3, rest⟩⟩⟩⟩ <;>
      simp only [List.length_nil, List.length_cons] at h3
    · omega
    · omega
    · omega
    · omega
    · have hrest : rest = [] := by
        cases rest with
        | nil => rfl
        | cons x xs => simp at h3
      subst hrest
      simp [DXT3AlphaBlock.serialize, bytesOfU16]
  have h5l : a5.serialize.length = 8 := by
    simp [DXT5AlphaBlock.serialize, h5]
  have h3cl : (a3.serialize ++ c.serialize).length = 16 := by
    simp [List.length_append, hcl, h3l]
  have h5cl : (a5.serialize ++ c.serialize).length = 16 := by
    simp [List.length_append, hcl, h5l]
  refine ⟨hcl, h3cl, h5cl, ?_, ?_, ?_⟩
  · intro w h
    rw [size_dxtc, if_pos (Or.inr rfl), hcl]
  · intro w h
    rw [size_dxtc, if_neg (by decide), h3cl]
  · intro w h
    rw [size_dxtc, if_neg (by decide), h5cl]

/-- C9 witness: the budget at concrete zero-filled blocks. -/
theorem C9_witness :
    (DXTColBlock.mk 0 0 [0, 0, 0, 0]).row.length = 4
    ∧ (DXTColBlock.mk 0 0 [0, 0, 0, 0]).serialize.length = 8 :=
  ⟨rfl,
    (C9_block_layout (DXTColBlock.mk 0 0 [0, 0, 0, 0])
      (DXT3AlphaBlock.mk [0, 0, 0, 0])
      (DXT5AlphaBlock.mk 0 0 [0, 0, 0, 0, 0, 0]) rfl rfl rfl).1⟩

/-- C4: for every valid, well-formed image of every supported texture
type and pixel format (structure agreeing with the header the encoder
writes: face count per type, mip dimensions clamped per level, per-level
sizes from the format arithmetic, buffers of exactly that many bytes),
encoding with flip disabled and then decoding with flip disabled yields
an image equal to the original, byte-for-byte. -/
theorem C4_encode_decode_roundtrip (img : CDDSImage)
    (h : wellFormedImage img = true) :
    (save_noflip img).bind load_noflip = some img := by
  rcases img with ⟨f, c, ty, v, imgs⟩
  cases v with
  | false => simp [wellFormedImage] at h
  | true =>
  cases imgs with
  | nil => simp [wellFormedImage] at h
  | cons t rest =>
  simp only [wellFormedImage, Bool.and_eq_true] at h
  obtain ⟨⟨hfmt, htype⟩, hall⟩ := h
  have hts : ∀ x ∈ t :: rest,
      textureMatches (mkHeader (CDDSImage.mk f c ty true (t :: rest)) t) x = true :=
    List.all_eq_true.mp hall
  have hfaces : (if ((mkHeader (CDDSImage.mk f c ty true (t :: rest)) t).cubemapFlag)
        = true then 6 else 1)
      = (t :: rest).length := by
    show (if (ty == TextureCubemap) = true then 6 else 1) = (t :: rest).length
    cases ty with
    | TextureNone => simp at htype
    | TextureFlat =>
        have hre : rest = [] := List.isEmpty_iff.mp htype
        subst hre
        rfl
    | Texture3D =>
        have hre : rest = [] := List.isEmpty_iff.mp htype
        subst hre
        rfl
    | TextureCubemap =>
        have hlen : (t :: rest).length = 6 := by
          simpa using htype
        simp [hlen]
  have hcond : ((mkHeader (CDDSImage.mk f c ty true (t :: rest)) t).magic == ddsMagic
      && supportedFormat (mkHeader (CDDSImage.mk f c ty true (t :: rest)) t).format
           (mkHeader (CDDSImage.mk f c ty true (t :: rest)) t).components) = true := by
    show ((ddsMagic == ddsMagic) && supportedFormat f c) = true
    rw [hfmt]
    rfl
  have hsave : save_noflip (CDDSImage.mk f c ty true (t :: rest))
      = some (mkHeader (CDDSImage.mk f c ty true (t :: rest)) t,
          ((t :: rest).map textureBytes).flatten) := rfl
  rw [hsave, Option.some_bind, load_noflip, if_pos hcond]
  rw [hfaces]
  have hread := readFaces_exact (mkHeader (CDDSImage.mk f c ty true (t :: rest)) t)
    (t :: rest) hts
  rw [show ((mkHeader (CDDSImage.mk f c ty true (t :: rest)) t,
      ((t :: rest).map textureBytes).flatten).2)
      = ((t :: rest).map textureBytes).flatten from rfl, hread, Option.map_some']
  show some (CDDSImage.mk f c
      (if (ty == TextureCubemap) = true then TextureCubemap
        else if (ty == Texture3D) = true then Texture3D else TextureFlat)
      true (t :: rest))
    = some (CDDSImage.mk f c ty true (t :: rest))
  have htyeq : (if (ty == TextureCubemap) = true then TextureCubemap
      else if (ty == Texture3D) = true then Texture3D else TextureFlat) = ty := by
    cases ty with
    | TextureNone => simp at htype
    | TextureFlat => rfl
    | Texture3D => rfl
    | TextureCubemap => rfl
  rw [htyeq]

/-- C4 witness: the encode-decode round trip at a concrete valid 4 x 1
RGB image. -/
theorem C4_witness :
    wellFormedImage imgAligned4x1 = true
    ∧ (save_noflip imgAligned4x1).bind load_noflip = some imgAligned4x1 :=
  ⟨by decide, C4_encode_decode_roundtrip imgAligned4x1 (by decide)⟩

end nv_dds
